import Mathlib

/-!
Verification of the startools example driver
(`python/example-src/com/globalphasing/startools/star_example.py`).

The driver reads a verbosity selector and a source path from the
invocation arguments, pulls every token from a tokeniser, and reports a
per-category histogram and a grand total.  We embed the driver as pure
Lean functions: the token stream is a finite list of tokens possibly
followed by a terminal (lexical or I/O) error, printing is modelled as
the list of printed items, and Python `IndexError` on list indexing is
modelled by an explicit error value.
-/

namespace StarExample

/-- A token as seen by the driver: its category index (`t.type` in the
Python source) and its printed representation. -/
structure StarToken where
  type : Nat
  text : String
deriving DecidableEq, Repr

/-- Errors that can abort the driver: a lexical or I/O error raised by
the tokeniser while pulling the next token, or a Python `IndexError`
from indexing the 18-entry type table out of range. -/
inductive DriverError where
  | lexical (msg : String)
  | io (msg : String)
  | indexError
deriving DecidableEq, Repr

/-- Everything a completed run reports: the tokens printed one per line
during consumption, the final per-category table (`None` in quiet mode,
as in `type_table = None if verbosity == "q" else [0] * 18`), the
summary lines `(count, index)` printed by the final loop, and the grand
total `ntokens` printed last. -/
structure RunResult where
  printed : List StarToken
  table : Option (List Nat)
  summary : List (Nat × Nat)
  ntokens : Nat
deriving DecidableEq, Repr

/-- `type_table[j] += 1` on a Python list: in range it replaces entry
`j` by its successor, out of range it raises `IndexError` (modelled as
`none`). -/
def incrAt (tbl : List Nat) (j : Nat) : Option (List Nat) :=
  if j < tbl.length then some (tbl.set j (tbl.getD j 0 + 1)) else none

/-- The `verbosity == "t"` consumption loop:
`for t in tokeniser: type_table[t.type] += 1`.
The stream yields the tokens of `toks` in order and then either ends or
raises `terminal`. -/
def tableLoopE (toks : List StarToken) (terminal : Option DriverError)
    (tbl : List Nat) : Except DriverError (List Nat) :=
  match toks with
  | [] =>
    match terminal with
    | none => .ok tbl
    | some e => .error e
  | t :: rest =>
    match incrAt tbl t.type with
    | none => .error .indexError
    | some tbl1 => tableLoopE rest terminal tbl1

/-- The `verbosity == "q"` consumption loop:
`for t in tokeniser: ntokens += 1`. -/
def quietLoopE (toks : List StarToken) (terminal : Option DriverError)
    (n : Nat) : Except DriverError Nat :=
  match toks with
  | [] =>
    match terminal with
    | none => .ok n
    | some e => .error e
  | _ :: rest => quietLoopE rest terminal (n + 1)

/-- The default consumption loop:
`for t in tokeniser: print t; type_table[t.type] += 1`.
`out` accumulates the tokens printed so far. -/
def printLoopE (toks : List StarToken) (terminal : Option DriverError)
    (tbl : List Nat) (out : List StarToken) :
    Except DriverError (List Nat × List StarToken) :=
  match toks with
  | [] =>
    match terminal with
    | none => .ok (tbl, out)
    | some e => .error e
  | t :: rest =>
    match incrAt tbl t.type with
    | none => .error .indexError
    | some tbl1 => printLoopE rest terminal tbl1 (out ++ [t])

/-- The grand total accumulated by the summary loop
`for i in range(1, len(type_table)): ntokens += type_table[i]`,
starting from the value `n` that `ntokens` has after consumption. -/
def summaryTotal (n : Nat) (tbl : List Nat) : Nat :=
  ((List.range tbl.length).drop 1).foldl (fun acc i => acc + tbl.getD i 0) n

/-- The `(count, index)` pairs printed by the summary loop
`for i in range(1, len(type_table)): print type_table[i], ...`. -/
def summaryLines (tbl : List Nat) : List (Nat × Nat) :=
  ((List.range tbl.length).drop 1).map (fun i => (tbl.getD i 0, i))

/-- The whole driver after argument parsing: dispatch on the verbosity
once (`if verbosity == "t": ... elif verbosity == "q": ... else: ...`),
run the selected loop over the stream, then report.  In quiet mode
`type_table` is `None`, so the summary loop is skipped and the total is
the loop count; otherwise the table starts as `[0] * 18` and the total
is accumulated from the table entries at indices `1..17`. -/
def runDriver (v : Char) (toks : List StarToken)
    (terminal : Option DriverError) : Except DriverError RunResult :=
  if v = 't' then
    match tableLoopE toks terminal (List.replicate 18 0) with
    | .error e => .error e
    | .ok tbl => .ok ⟨[], some tbl, summaryLines tbl, summaryTotal 0 tbl⟩
  else if v = 'q' then
    match quietLoopE toks terminal 0 with
    | .error e => .error e
    | .ok n => .ok ⟨[], none, [], n⟩
  else
    match printLoopE toks terminal (List.replicate 18 0) [] with
    | .error e => .error e
    | .ok (tbl, out) =>
      .ok ⟨out, some tbl, summaryLines tbl, summaryTotal 0 tbl⟩

/-- Modelled from the spec: the rejected alternative the source comment
warns against — a single loop that re-checks the verbosity on every
token (`for t in tokeniser: if verbosity == ...`).  State is the table,
the token count and the printed output. -/
def recheckLoop (v : Char) (toks : List StarToken)
    (terminal : Option DriverError) (tbl : List Nat) (n : Nat)
    (out : List StarToken) :
    Except DriverError (List Nat × Nat × List StarToken) :=
  match toks with
  | [] =>
    match terminal with
    | none => .ok (tbl, n, out)
    | some e => .error e
  | t :: rest =>
    if v = 't' then
      match incrAt tbl t.type with
      | none => .error .indexError
      | some tbl1 => recheckLoop v rest terminal tbl1 n out
    else if v = 'q' then
      recheckLoop v rest terminal tbl (n + 1) out
    else
      match incrAt tbl t.type with
      | none => .error .indexError
      | some tbl1 => recheckLoop v rest terminal tbl1 n (out ++ [t])

/-- Argument parsing (lines 15-20 of the source): if the first
invocation argument begins with `-`, the verbosity is its second
character and the path is the second argument; otherwise the verbosity
is `a` and the path is the first argument.  `argv.[0]` is the program
name, as in Python's `sys.argv`.  Any out-of-range indexing
(`IndexError`) is modelled as `none`. -/
def parseArgs (argv : List String) : Option (Char × String) := do
  let a1 ← argv[1]?
  let c0 ← a1.toList[0]?
  if c0 = '-' then do
    let v ← a1.toList[1]?
    let cif ← argv[2]?
    pure (v, cif)
  else
    pure ('a', a1)

/-- The whole `__main__` block: parse the arguments, hand the resolved
path to the tokeniser (`source` maps a path to the token stream it
yields: tokens plus optional terminal error), consume, report.  The
returned `String` is the path that was passed to
`tokeniser.start_matching`. -/
def runMain (argv : List String)
    (source : String → List StarToken × Option DriverError) :
    Option (String × Except DriverError RunResult) :=
  match parseArgs argv with
  | none => none
  | some (v, cif) => some (cif, runDriver v (source cif).1 (source cif).2)

/-- Number of tokens of category `i` in a stream. -/
def countType (toks : List StarToken) (i : Nat) : Nat :=
  toks.countP (fun t => t.type == i)

/-- Number of tokens whose category index is nonzero. -/
def countNonzero (toks : List StarToken) : Nat :=
  toks.countP (fun t => !(t.type == 0))

/-! ### Helper lemmas -/

theorem incrAt_of_lt {tbl : List Nat} {j : Nat} (h : j < tbl.length) :
    incrAt tbl j = some (tbl.set j (tbl.getD j 0 + 1)) := by
  simp [incrAt, h]

theorem getD_set_of_lt :
    ∀ (l : List Nat) (j : Nat), j < l.length → ∀ (v i : Nat),
      (l.set j v).getD i 0 = if i = j then v else l.getD i 0 := by
  intro l
  induction l with
  | nil => intro j h; simp at h
  | cons x xs ih =>
    intro j hj v i
    cases j with
    | zero => cases i <;> simp
    | succ k =>
      cases i with
      | zero => simp
      | succ m =>
        have hk : k < xs.length := by simpa using hj
        simp only [List.set_cons_succ, List.getD_cons_succ,
          Nat.add_right_cancel_iff]
        exact ih k hk v m

theorem sum_set_incr :
    ∀ (l : List Nat) (j : Nat), j < l.length →
      (l.set j (l.getD j 0 + 1)).sum = l.sum + 1 := by
  intro l
  induction l with
  | nil => intro j h; simp at h
  | cons x xs ih =>
    intro j hj
    cases j with
    | zero => simp; omega
    | succ k =>
      have hk : k < xs.length := by simpa using hj
      simp only [List.getD_cons_succ, List.set_cons_succ, List.sum_cons]
      rw [ih k hk]
      omega

theorem dropOne_sum_set_incr (l : List Nat) (j : Nat) (h : j < l.length) :
    ((l.set j (l.getD j 0 + 1)).drop 1).sum
      = (l.drop 1).sum + (if j = 0 then 0 else 1) := by
  cases l with
  | nil => simp at h
  | cons x xs =>
    cases j with
    | zero => simp
    | succ k =>
      have hk : k < xs.length := by simpa using h
      simp only [List.getD_cons_succ, List.set_cons_succ,
        List.drop_succ_cons, List.drop_zero]
      rw [sum_set_incr xs k hk]
      simp

/-- The quiet loop just adds the stream length to the running count,
or propagates the terminal error. -/
theorem quietLoopE_eq :
    ∀ (toks : List StarToken) (terminal : Option DriverError) (n : Nat),
      quietLoopE toks terminal n =
        match terminal with
        | none => .ok (n + toks.length)
        | some e => .error e := by
  intro toks
  induction toks with
  | nil => intro terminal n; cases terminal <;> simp [quietLoopE]
  | cons t rest ih =>
    intro terminal n
    rw [quietLoopE, ih]
    cases terminal with
    | none => simp; omega
    | some e => simp

/-- On an error-free stream whose token types are all in range, the
table loop succeeds, preserves the table length, increments entry `i`
once per token of type `i` (so the total number of increments is the
number of tokens), and grows the sum of the entries at indices `≥ 1` by
the number of tokens of nonzero type. -/
theorem tableLoopE_ok_spec :
    ∀ (toks : List StarToken) (tbl : List Nat),
      (∀ t ∈ toks, t.type < tbl.length) →
      ∃ tbl', tableLoopE toks none tbl = .ok tbl' ∧
        tbl'.length = tbl.length ∧
        (∀ i, tbl'.getD i 0 = tbl.getD i 0 + countType toks i) ∧
        tbl'.sum = tbl.sum + toks.length ∧
        (tbl'.drop 1).sum = (tbl.drop 1).sum + countNonzero toks := by
  intro toks
  induction toks with
  | nil =>
    intro tbl _
    exact ⟨tbl, rfl, rfl, fun i => by simp [countType], by simp,
      by simp [countNonzero]⟩
  | cons t rest ih =>
    intro tbl h
    have ht : t.type < tbl.length := h t (by simp)
    have hlen1 : (tbl.set t.type (tbl.getD t.type 0 + 1)).length = tbl.length :=
      List.length_set ..
    obtain ⟨tbl', heq, hlen, hpt, hsum, hdrop⟩ :=
      ih (tbl.set t.type (tbl.getD t.type 0 + 1))
        (fun u hu => hlen1 ▸ h u (List.mem_cons_of_mem _ hu))
    refine ⟨tbl', ?_, by rw [hlen, hlen1], ?_, ?_, ?_⟩
    · rw [tableLoopE, incrAt_of_lt ht]
      exact heq
    · intro i
      rw [hpt i, getD_set_of_lt tbl t.type ht _ i]
      simp only [countType, List.countP_cons, beq_iff_eq]
      by_cases hti : i = t.type
      · subst hti; simp; omega
      · have : ¬ (t.type = i) := fun hc => hti hc.symm
        simp [hti, this]
    · rw [hsum, sum_set_incr tbl t.type ht]
      simp
      omega
    · rw [hdrop, dropOne_sum_set_incr tbl t.type ht]
      simp only [countNonzero, List.countP_cons]
      by_cases h0 : t.type = 0
      · simp [h0]
      · simp [h0]
        omega

/-- With all token types in range, a terminal error on the stream makes
the table loop fail with exactly that error. -/
theorem tableLoopE_error :
    ∀ (toks : List StarToken) (e : DriverError) (tbl : List Nat),
      (∀ t ∈ toks, t.type < tbl.length) →
      tableLoopE toks (some e) tbl = .error e := by
  intro toks
  induction toks with
  | nil => intro e tbl _; rfl
  | cons t rest ih =>
    intro e tbl h
    have ht : t.type < tbl.length := h t (by simp)
    rw [tableLoopE, incrAt_of_lt ht]
    exact ih e _ (fun u hu => by
      rw [List.length_set]
      exact h u (List.mem_cons_of_mem _ hu))

/-- The default (print-and-count) loop is the table loop plus the
printed tokens appended in order. -/
theorem printLoopE_eq :
    ∀ (toks : List StarToken) (terminal : Option DriverError)
      (tbl : List Nat) (out : List StarToken),
      printLoopE toks terminal tbl out =
        (tableLoopE toks terminal tbl).map (fun tbl' => (tbl', out ++ toks)) := by
  intro toks
  induction toks with
  | nil =>
    intro terminal tbl out
    cases terminal <;> simp [printLoopE, tableLoopE, Except.map]
  | cons t rest ih =>
    intro terminal tbl out
    rw [printLoopE, tableLoopE]
    cases hinc : incrAt tbl t.type with
    | none => simp [Except.map]
    | some tbl1 =>
      show printLoopE rest terminal tbl1 (out ++ [t])
        = Except.map (fun tbl' => (tbl', out ++ t :: rest))
            (tableLoopE rest terminal tbl1)
      rw [ih terminal tbl1 (out ++ [t])]
      cases tableLoopE rest terminal tbl1 <;> simp [Except.map]

theorem foldl_range_getD_sum :
    ∀ (l : List Nat) (n : Nat),
      (List.range l.length).foldl (fun acc i => acc + l.getD i 0) n = n + l.sum := by
  intro l
  induction l with
  | nil => intro n; simp
  | cons x xs ih =>
    intro n
    simp only [List.length_cons, List.range_succ_eq_map, List.foldl_cons,
      List.foldl_map, List.getD_cons_zero, List.getD_cons_succ, List.sum_cons]
    rw [ih (n + x)]
    omega

/-- The summary loop over `range(1, len(type_table))` adds exactly the
sum of the table entries at indices `≥ 1` to the running count. -/
theorem summaryTotal_eq_dropSum (n : Nat) (tbl : List Nat) :
    summaryTotal n tbl = n + (tbl.drop 1).sum := by
  cases tbl with
  | nil => simp [summaryTotal]
  | cons x xs =>
    simp only [summaryTotal, List.length_cons, List.range_succ_eq_map,
      List.drop_succ_cons, List.drop_zero, List.foldl_map, List.getD_cons_succ,
      List.drop_one, List.tail_cons]
    exact foldl_range_getD_sum xs n

/-- The summary loop visits exactly the indices `1 .. len-1`. -/
theorem summaryLines_map_snd (tbl : List Nat) :
    (summaryLines tbl).map Prod.snd = (List.range tbl.length).drop 1 := by
  rw [summaryLines, List.map_map]
  exact List.map_id _

theorem getD_replicate_zero (n i : Nat) :
    (List.replicate n (0 : Nat)).getD i 0 = 0 := by
  rw [List.getD_eq_getElem?_getD, List.getElem?_replicate]
  split <;> rfl

/-- Quiet mode: no table, no summary lines, total = number of tokens;
a terminal error propagates. -/
theorem runDriver_quiet (toks : List StarToken) (terminal : Option DriverError) :
    runDriver 'q' toks terminal =
      match terminal with
      | none => .ok ⟨[], none, [], toks.length⟩
      | some e => .error e := by
  rw [runDriver]
  cases terminal <;> simp [quietLoopE_eq]

/-- Any non-quiet mode on an error-free in-range stream: the run
completes, prints the tokens unless in table mode, and ends with a
table of length 18 whose entry `i` counts the tokens of type `i`; the
reported grand total counts the tokens of nonzero type. -/
theorem runDriver_nonquiet (v : Char) (hq : v ≠ 'q') (toks : List StarToken)
    (h : ∀ t ∈ toks, t.type < 18) :
    ∃ tbl, runDriver v toks none =
        .ok ⟨if v = 't' then [] else toks, some tbl,
             summaryLines tbl, summaryTotal 0 tbl⟩ ∧
      tbl.length = 18 ∧
      (∀ i, tbl.getD i 0 = countType toks i) ∧
      tbl.sum = toks.length ∧
      summaryTotal 0 tbl = countNonzero toks := by
  have h' : ∀ t ∈ toks, t.type < (List.replicate 18 (0 : Nat)).length := by
    simpa using h
  obtain ⟨tbl, heq, hlen, hpt, hsum, hdrop⟩ :=
    tableLoopE_ok_spec toks (List.replicate 18 0) h'
  have hpt' : ∀ i, tbl.getD i 0 = countType toks i := fun i => by
    rw [hpt i, getD_replicate_zero]; omega
  have hsum' : tbl.sum = toks.length := by
    rw [hsum]; simp
  have hdrop' : (tbl.drop 1).sum = countNonzero toks := by
    rw [hdrop, List.drop_replicate]; simp
  have htot : summaryTotal 0 tbl = countNonzero toks := by
    rw [summaryTotal_eq_dropSum, hdrop', Nat.zero_add]
  have hlen' : tbl.length = 18 := by simpa using hlen
  by_cases ht : v = 't'
  · subst ht
    refine ⟨tbl, ?_, hlen', hpt', hsum', htot⟩
    rw [runDriver, if_pos rfl, heq]
    simp
  · refine ⟨tbl, ?_, hlen', hpt', hsum', htot⟩
    rw [runDriver, if_neg ht, if_neg hq, printLoopE_eq, heq, if_neg ht]
    rfl

/-! ### Claims -/

/-- Claim C1, counterexample: the grand total reported at the end of a
completed run is not always the number of tokens pulled.  In table mode
a single token of category 0 is pulled, the run completes, and the
reported total is 0, because the summary loop starts at index 1. -/
theorem claim_C1_counterexample :
    ¬ ((runDriver 't' [⟨0, "#"⟩] none).toOption.map RunResult.ntokens
        = some ([(⟨0, "#"⟩ : StarToken)].length)) := by
  decide

/-- Claim C1 as amended: for every finite token stream (with all
category indices inside the 18-entry table) and every verbosity mode,
the grand total reported at the end of a completed run equals the
number of tokens pulled in quiet mode, and the number of tokens pulled
whose category index is nonzero in every other mode. -/
theorem claim_C1 (v : Char) (toks : List StarToken)
    (h : ∀ t ∈ toks, t.type < 18) :
    ∃ r, runDriver v toks none = .ok r ∧
      r.ntokens = if v = 'q' then toks.length else countNonzero toks := by
  by_cases hq : v = 'q'
  · subst hq
    exact ⟨⟨[], none, [], toks.length⟩, runDriver_quiet toks none, by simp⟩
  · obtain ⟨tbl, heq, _, _, _, htot⟩ := runDriver_nonquiet v hq toks h
    exact ⟨_, heq, by simp [hq, htot]⟩

/-- Witness for C1 at a concrete stream and mode. -/
theorem claim_C1_witness :
    (∀ t ∈ [(⟨1, "_x"⟩ : StarToken)], t.type < 18) ∧
    ∃ r, runDriver 'a' [⟨1, "_x"⟩] none = .ok r ∧
      r.ntokens = if 'a' = 'q' then ([(⟨1, "_x"⟩ : StarToken)]).length
                  else countNonzero [⟨1, "_x"⟩] :=
  ⟨by decide, claim_C1 'a' [⟨1, "_x"⟩] (by decide)⟩

/-- Claim C2: for every token sequence, terminal condition, verbosity
and starting state, the pre-selected consumption loop chosen by the
driver's dispatch (table loop for `t`, count-only loop for `q`,
print-and-count loop otherwise) computes exactly the same result as the
rejected single loop that re-checks the verbosity on every token; the
three per-mode loops take no verbosity argument at all, so no verbosity
test occurs in their per-token bodies. -/
theorem claim_C2 (v : Char) (toks : List StarToken)
    (terminal : Option DriverError) (tbl : List Nat) (n : Nat)
    (out : List StarToken) :
    recheckLoop v toks terminal tbl n out =
      if v = 't' then
        (tableLoopE toks terminal tbl).map (fun tbl' => (tbl', n, out))
      else if v = 'q' then
        (quietLoopE toks terminal n).map (fun n' => (tbl, n', out))
      else
        (printLoopE toks terminal tbl out).map (fun p => (p.1, n, p.2)) := by
  induction toks generalizing tbl n out with
  | nil =>
    by_cases h1 : v = 't'
    · cases terminal <;> simp [recheckLoop, tableLoopE, h1, Except.map]
    · by_cases h2 : v = 'q'
      · cases terminal <;>
          simp [recheckLoop, tableLoopE, quietLoopE, printLoopE, h1, h2,
            Except.map]
      · cases terminal <;>
          simp [recheckLoop, tableLoopE, quietLoopE, printLoopE, h1, h2,
            Except.map]
  | cons t rest ih =>
    rw [recheckLoop]
    by_cases h1 : v = 't'
    · rw [if_pos h1, if_pos h1, tableLoopE]
      cases hinc : incrAt tbl t.type with
      | none => simp [Except.map]
      | some tbl1 =>
        show recheckLoop v rest terminal tbl1 n out = _
        rw [ih tbl1 n out, if_pos h1]
    · by_cases h2 : v = 'q'
      · rw [if_neg h1, if_pos h2, if_neg h1, if_pos h2, quietLoopE]
        rw [ih tbl (n + 1) out, if_neg h1, if_pos h2]
      · rw [if_neg h1, if_neg h2, if_neg h1, if_neg h2, printLoopE]
        cases hinc : incrAt tbl t.type with
        | none => simp [Except.map]
        | some tbl1 =>
          show recheckLoop v rest terminal tbl1 n (out ++ [t]) = _
          rw [ih tbl1 n (out ++ [t]), if_neg h1, if_neg h2]

/-- Claim C3: in non-quiet modes the summary visits table indices 1
through 17 only, so category-0 tokens are excluded from the reported
total, which counts exactly the tokens of nonzero category; the
quiet-mode total is the full pull count, hence is at least the
non-quiet total, with equality exactly when no token has category 0. -/
theorem claim_C3 (v : Char) (hv : v ≠ 'q') (toks : List StarToken)
    (h : ∀ t ∈ toks, t.type < 18) :
    ∃ rq rv, runDriver 'q' toks none = .ok rq ∧
      runDriver v toks none = .ok rv ∧
      rv.summary.map Prod.snd = (List.range 18).drop 1 ∧
      rv.ntokens = countNonzero toks ∧
      rq.ntokens = toks.length ∧
      rv.ntokens ≤ rq.ntokens ∧
      (rv.ntokens = rq.ntokens ↔ ∀ t ∈ toks, t.type ≠ 0) := by
  obtain ⟨tbl, heq, hlen, hpt, hsum, htot⟩ := runDriver_nonquiet v hv toks h
  have hle : countNonzero toks ≤ toks.length := List.countP_le_length _
  have hiff : countNonzero toks = toks.length ↔ ∀ t ∈ toks, t.type ≠ 0 := by
    rw [countNonzero, List.countP_eq_length]
    constructor
    · intro hall t ht
      simpa using hall t ht
    · intro hall t ht
      simpa using hall t ht
  refine ⟨⟨[], none, [], toks.length⟩, _, runDriver_quiet toks none, heq,
    ?_, htot, rfl, ?_, ?_⟩
  · rw [summaryLines_map_snd, hlen]
  · simpa [htot] using hle
  · simpa [htot] using hiff

/-- Witness for C3 at a concrete stream and mode. -/
theorem claim_C3_witness :
    ('a' : Char) ≠ 'q' ∧
    (∀ t ∈ [(⟨1, "_x"⟩ : StarToken), ⟨3, "v"⟩], t.type < 18) ∧
    ∃ rq rv, runDriver 'q' [(⟨1, "_x"⟩ : StarToken), ⟨3, "v"⟩] none = .ok rq ∧
      runDriver 'a' [(⟨1, "_x"⟩ : StarToken), ⟨3, "v"⟩] none = .ok rv ∧
      rv.summary.map Prod.snd = (List.range 18).drop 1 ∧
      rv.ntokens = countNonzero [(⟨1, "_x"⟩ : StarToken), ⟨3, "v"⟩] ∧
      rq.ntokens = [(⟨1, "_x"⟩ : StarToken), ⟨3, "v"⟩].length ∧
      rv.ntokens ≤ rq.ntokens ∧
      (rv.ntokens = rq.ntokens ↔
        ∀ t ∈ [(⟨1, "_x"⟩ : StarToken), ⟨3, "v"⟩], t.type ≠ 0) :=
  ⟨by decide, by decide,
    claim_C3 'a' (by decide) [(⟨1, "_x"⟩ : StarToken), ⟨3, "v"⟩] (by decide)⟩

/-- Claim C4: in quiet mode the driver only counts tokens: the final
table is `None` (never allocated), no summary lines are printed, no
tokens are printed, and the reported total is exactly the number of
tokens iterated.  This holds for any stream, even one whose category
indices would overflow the table, since the quiet loop never indexes
a table. -/
theorem claim_C4 (toks : List StarToken) :
    runDriver 'q' toks none = .ok ⟨[], none, [], toks.length⟩ :=
  runDriver_quiet toks none

/-- Claim C5: in table mode the driver prints nothing per token and,
for every token pulled, performs exactly one increment in the 18-entry
per-category table at the index given by the token's category: the
final entry `i` is the number of tokens of category `i`, and the sum of
all entries is the number of tokens pulled. -/
theorem claim_C5 (toks : List StarToken) (h : ∀ t ∈ toks, t.type < 18) :
    ∃ tbl, runDriver 't' toks none =
        .ok ⟨[], some tbl, summaryLines tbl, summaryTotal 0 tbl⟩ ∧
      tbl.length = 18 ∧
      (∀ i, tbl.getD i 0 = countType toks i) ∧
      tbl.sum = toks.length := by
  obtain ⟨tbl, heq, hlen, hpt, hsum, _⟩ :=
    runDriver_nonquiet 't' (by decide) toks h
  exact ⟨tbl, by simpa using heq, hlen, hpt, hsum⟩

/-- Witness for C5 at a concrete stream. -/
theorem claim_C5_witness :
    (∀ t ∈ [(⟨2, "x"⟩ : StarToken), ⟨2, "y"⟩, ⟨5, "z"⟩], t.type < 18) ∧
    ∃ tbl, runDriver 't' [(⟨2, "x"⟩ : StarToken), ⟨2, "y"⟩, ⟨5, "z"⟩] none =
        .ok ⟨[], some tbl, summaryLines tbl, summaryTotal 0 tbl⟩ ∧
      tbl.length = 18 ∧
      (∀ i, tbl.getD i 0 = countType [(⟨2, "x"⟩ : StarToken), ⟨2, "y"⟩, ⟨5, "z"⟩] i) ∧
      tbl.sum = [(⟨2, "x"⟩ : StarToken), ⟨2, "y"⟩, ⟨5, "z"⟩].length :=
  ⟨by decide, claim_C5 [(⟨2, "x"⟩ : StarToken), ⟨2, "y"⟩, ⟨5, "z"⟩] (by decide)⟩

/-- Claim C6: in the default mode (any verbosity other than `q` and
`t`), the driver prints every token pulled, in order, and increments the
per-category table entry indexed by the token's category; at the end it
reports the histogram (one line per index 1..17 carrying that
category's count) and the grand total. -/
theorem claim_C6 (v : Char) (hq : v ≠ 'q') (ht : v ≠ 't')
    (toks : List StarToken) (h : ∀ t ∈ toks, t.type < 18) :
    ∃ tbl, runDriver v toks none =
        .ok ⟨toks, some tbl, summaryLines tbl, summaryTotal 0 tbl⟩ ∧
      tbl.length = 18 ∧
      (∀ i, tbl.getD i 0 = countType toks i) ∧
      summaryLines tbl =
        ((List.range 18).drop 1).map (fun i => (countType toks i, i)) ∧
      summaryTotal 0 tbl = countNonzero toks := by
  obtain ⟨tbl, heq, hlen, hpt, hsum, htot⟩ := runDriver_nonquiet v hq toks h
  refine ⟨tbl, ?_, hlen, hpt, ?_, htot⟩
  · rw [if_neg ht] at heq
    exact heq
  · rw [summaryLines, hlen]
    exact List.map_congr_left (fun i _ => by rw [hpt i])

/-- Witness for C6 at a concrete stream and mode. -/
theorem claim_C6_witness :
    ('a' : Char) ≠ 'q' ∧ ('a' : Char) ≠ 't' ∧
    (∀ t ∈ [(⟨1, "_x"⟩ : StarToken), ⟨4, "12"⟩], t.type < 18) ∧
    ∃ tbl, runDriver 'a' [(⟨1, "_x"⟩ : StarToken), ⟨4, "12"⟩] none =
        .ok ⟨[(⟨1, "_x"⟩ : StarToken), ⟨4, "12"⟩], some tbl,
             summaryLines tbl, summaryTotal 0 tbl⟩ ∧
      tbl.length = 18 ∧
      (∀ i, tbl.getD i 0 = countType [(⟨1, "_x"⟩ : StarToken), ⟨4, "12"⟩] i) ∧
      summaryLines tbl =
        ((List.range 18).drop 1).map
          (fun i => (countType [(⟨1, "_x"⟩ : StarToken), ⟨4, "12"⟩] i, i)) ∧
      summaryTotal 0 tbl = countNonzero [(⟨1, "_x"⟩ : StarToken), ⟨4, "12"⟩] :=
  ⟨by decide, by decide, by decide,
    claim_C6 'a' (by decide) (by decide)
      [(⟨1, "_x"⟩ : StarToken), ⟨4, "12"⟩] (by decide)⟩

/-- Claim C7: if the first invocation argument begins with `-`, the
verbosity is the character immediately after the `-` and the path is
the second argument; otherwise the verbosity defaults to `a` and the
path is the first argument; in both cases the run consumes exactly the
token stream the tokeniser yields for the resolved path. -/
theorem claim_C7 :
    (∀ (prog a1 a2 : String) (v : Char) (tail : List Char)
        (rest : List String)
        (source : String → List StarToken × Option DriverError),
        a1.data = '-' :: v :: tail →
        parseArgs (prog :: a1 :: a2 :: rest) = some (v, a2) ∧
        runMain (prog :: a1 :: a2 :: rest) source =
          some (a2, runDriver v (source a2).1 (source a2).2)) ∧
    (∀ (prog a1 : String) (c : Char) (tail : List Char)
        (rest : List String)
        (source : String → List StarToken × Option DriverError),
        a1.data = c :: tail → c ≠ '-' →
        parseArgs (prog :: a1 :: rest) = some ('a', a1) ∧
        runMain (prog :: a1 :: rest) source =
          some (a1, runDriver 'a' (source a1).1 (source a1).2)) := by
  constructor
  · intro prog a1 a2 v tail rest source hchars
    have hp : parseArgs (prog :: a1 :: a2 :: rest) = some (v, a2) := by
      simp [parseArgs, String.toList, hchars]
    exact ⟨hp, by rw [runMain, hp]⟩
  · intro prog a1 c tail rest source hchars hc
    have hp : parseArgs (prog :: a1 :: rest) = some ('a', a1) := by
      simp [parseArgs, String.toList, hchars, hc]
    exact ⟨hp, by rw [runMain, hp]⟩

/-- Witness for C7: a dashed and an undashed first argument. -/
theorem claim_C7_witness :
    parseArgs ["prog", "-t", "a.cif"] = some ('t', "a.cif") ∧
    parseArgs ["prog", "b.cif"] = some ('a', "b.cif") :=
  ⟨(claim_C7.1 "prog" "-t" "a.cif" 't' [] [] (fun _ => ([], none)) rfl).1,
   (claim_C7.2 "prog" "b.cif" 'b' ['.', 'c', 'i', 'f'] []
      (fun _ => ([], none)) rfl (by decide)).1⟩

/-- Claim C8: if pulling the next token raises a lexical or I/O error,
the driver does not recover: in every verbosity mode the error
propagates out of the consumption loop and the run produces no
`RunResult`, hence no timing line, no per-category counts and no grand
total. -/
theorem claim_C8 (v : Char) (toks : List StarToken) (e : DriverError)
    (h : ∀ t ∈ toks, t.type < 18) :
    runDriver v toks (some e) = .error e := by
  by_cases hq : v = 'q'
  · subst hq
    exact runDriver_quiet toks (some e)
  · have h' : ∀ t ∈ toks, t.type < (List.replicate 18 (0 : Nat)).length := by
      simpa using h
    have herr := tableLoopE_error toks e (List.replicate 18 0) h'
    by_cases ht : v = 't'
    · subst ht
      rw [runDriver, if_pos rfl, herr]
    · rw [runDriver, if_neg ht, if_neg hq, printLoopE_eq, herr]
      rfl

/-- Witness for C8: a lexical error after one good token. -/
theorem claim_C8_witness :
    (∀ t ∈ [(⟨1, "_k"⟩ : StarToken)], t.type < 18) ∧
    runDriver 'a' [⟨1, "_k"⟩] (some (.lexical "unterminated quote")) =
      .error (.lexical "unterminated quote") :=
  ⟨by decide,
    claim_C8 'a' [⟨1, "_k"⟩] (.lexical "unterminated quote") (by decide)⟩

/-- Claim C9: any verbosity character other than `q` and `t` selects
exactly the behaviour of the default `a` mode, on any stream and any
terminal condition; the driver never rejects an unrecognized verbosity
selector. -/
theorem claim_C9 (v : Char) (hq : v ≠ 'q') (ht : v ≠ 't')
    (toks : List StarToken) (terminal : Option DriverError) :
    runDriver v toks terminal = runDriver 'a' toks terminal := by
  rw [runDriver, if_neg ht, if_neg hq, runDriver,
    if_neg (by decide : ¬ ('a' = 't')), if_neg (by decide : ¬ ('a' = 'q'))]

/-- Witness for C9: the unrecognized selector `z`. -/
theorem claim_C9_witness :
    ('z' : Char) ≠ 'q' ∧ ('z' : Char) ≠ 't' ∧
    runDriver 'z' [(⟨1, "_x"⟩ : StarToken)] none =
      runDriver 'a' [(⟨1, "_x"⟩ : StarToken)] none :=
  ⟨by decide, by decide, claim_C9 'z' (by decide) (by decide) [⟨1, "_x"⟩] none⟩

/-- Claim C10: invoked with no source-path argument — no arguments at
all, or a `-`-prefixed first argument and nothing after it — the driver
fails during argument parsing with an out-of-range index error, for
every tokeniser, so the tokeniser is never started and no token is
pulled. -/
theorem claim_C10 :
    (∀ source, runMain [] source = none) ∧
    (∀ (prog : String)
        (source : String → List StarToken × Option DriverError),
        runMain [prog] source = none) ∧
    (∀ (prog a1 : String)
        (source : String → List StarToken × Option DriverError),
        a1.data.head? = some '-' → runMain [prog, a1] source = none) := by
  refine ⟨fun source => rfl, fun prog source => rfl, ?_⟩
  intro prog a1 source hhead
  cases hd : a1.data with
  | nil => rw [hd] at hhead; simp at hhead
  | cons c cs =>
    rw [hd] at hhead
    simp at hhead
    subst hhead
    have hp : parseArgs [prog, a1] = none := by
      simp [parseArgs, String.toList, hd]
    rw [runMain, hp]

/-- Witness for C10: a lone dashed argument. -/
theorem claim_C10_witness :
    runMain ["prog", "-q"] (fun _ => ([], none)) = none :=
  claim_C10.2.2 "prog" "-q" (fun _ => ([], none)) rfl

end StarExample
